import Mathlib

/-!
Verification development for the wallet-monitor repository.

The JavaScript sources are shallowly embedded as executable Lean
definitions.  External services (Redis, the ledger RPC provider, the
Telegram API, the reputation lookup) appear as explicit state values or
oracle functions; machine integers of the source (JS `BigInt`) are
modelled as `Nat`/`Int`; fallible operations return `Except`/`Option`.
-/

namespace WalletMonitorModel

/-- ASCII lower-casing, modelling JS `String.prototype.toLowerCase` on the
address/hex strings the program manipulates. -/
def lower (s : String) : String :=
  String.mk (s.data.map Char.toLower)

/-- Split a character list at every occurrence of `sep`, always yielding
`number-of-separators + 1` (possibly empty) segments, like JS
`String.prototype.split` with a single-character separator. -/
def splitChar (sep : Char) : List Char → List (List Char)
  | [] => [[]]
  | c :: cs =>
    if c = sep then [] :: splitChar sep cs
    else
      match splitChar sep cs with
      | [] => [[c]]
      | seg :: rest => (c :: seg) :: rest

/-- The decoding of the `refer_id` ancestor-chain string kept by the store:
`""` denotes the empty chain, otherwise the `;`-separated segments. -/
def chainToList (s : String) : List String :=
  if s = "" then [] else (splitChar ';' s.data).map String.mk

/-- Lemma: `splitChar` never returns an empty list of segments. -/
theorem splitChar_ne_nil (sep : Char) (l : List Char) : splitChar sep l ≠ [] := by
  induction l with
  | nil => simp [splitChar]
  | cons c cs ih =>
    by_cases h : c = sep
    · simp [splitChar, h]
    · simp only [splitChar, if_neg h]
      cases hs : splitChar sep cs with
      | nil => simp
      | cons seg rest => simp

/-- Splitting distributes over concatenation at a separator boundary. -/
theorem splitChar_append_sep (sep : Char) (a b : List Char) :
    splitChar sep (a ++ sep :: b) = splitChar sep a ++ splitChar sep b := by
  induction a with
  | nil => simp [splitChar]
  | cons c cs ih =>
    by_cases h : c = sep
    · simp [splitChar, h, ih]
    · simp only [List.cons_append, splitChar, if_neg h, List.append_eq]
      cases hs : splitChar sep cs with
      | nil => exact absurd hs (splitChar_ne_nil sep cs)
      | cons seg rest => rw [ih, hs]; simp

/-- A list without the separator splits into the single whole segment. -/
theorem splitChar_no_sep (sep : Char) (l : List Char) (h : sep ∉ l) :
    splitChar sep l = [l] := by
  induction l with
  | nil => simp [splitChar]
  | cons c cs ih =>
    simp only [List.mem_cons, not_or] at h
    have hc : c ≠ sep := fun hcc => h.1 hcc.symm
    simp only [splitChar, if_neg hc, ih h.2]

/-! ## `RefRedis` (src/src/db/redis.js): the referral graph store

A node is kept as a Redis hash under key `node:<lowercased wallet>` (the
caller-supplied key prefix only namespaces instances and is dropped here);
the set `all_wallets` records membership.  The hash stores every field as a
string; `lv` is written with `toString` and read back with `parseInt`,
which is a bijection on `Nat`, so the model stores `lv : Nat` directly. -/

/-- The fields of one stored tracked node (the Redis hash contents). -/
structure NodeInfo where
  id : String
  name : String
  wallet : String
  refer : String
  refer_id : String
  lv : Nat
  deriving Repr, DecidableEq

/-- The store state: node hashes keyed by lowercased wallet, plus the
`all_wallets` membership set (kept as a list of added elements). -/
structure RefStore where
  nodes : List (String × NodeInfo)
  allWallets : List String
  deriving Repr, DecidableEq

def emptyStore : RefStore := ⟨[], []⟩

/-- Model of `RefRedis.existsWallet` / the `redis.exists(key)` check. -/
def existsWallet (s : RefStore) (wallet : String) : Bool :=
  (s.nodes.lookup (lower wallet)).isSome

/-- Model of `RefRedis.getNodeInfo` (returns `null` when the hash is empty). -/
def getNodeInfo (s : RefStore) (wallet : String) : Option NodeInfo :=
  s.nodes.lookup (lower wallet)

/-- Redis `sAdd`: set insertion (a no-op on an already-present member). -/
def sAddWallet (l : List String) (w : String) : List String :=
  if l.contains w then l else l ++ [w]

/-- Model of `RefRedis.addNode`: fails when a node for the (lowercased) wallet
already exists, otherwise writes the hash and adds the wallet to the
membership set. -/
def addNode (s : RefStore) (info : NodeInfo) : Except String RefStore :=
  let wallet := lower info.wallet
  if existsWallet s wallet then
    .error ("Node already exists for wallet: " ++ wallet)
  else
    .ok { nodes := s.nodes ++ [(wallet,
            { id := info.id, name := info.name, wallet := wallet,
              refer := lower info.refer, refer_id := info.refer_id,
              lv := info.lv })],
          allWallets := sAddWallet s.allWallets wallet }

/-- Model of `RefRedis.addNodeLite`: derives `lv`/`refer_id` from the referrer's
stored hash when the referrer exists, else creates a root-shaped node; the
node id is generated from clock and randomness in the source and is passed
in here as `id`. -/
def addNodeLite (s : RefStore) (wallet name refer id : String) :
    Except String RefStore :=
  let wallet' := lower wallet
  let refer' := lower refer
  let existsRef := existsWallet s refer'
  let lvChain : Nat × String :=
    if !existsRef then
      (1, "")
    else
      match s.nodes.lookup refer' with
      | none => (1, "")  -- unreachable: existsRef means the lookup succeeds
      | some parent =>
        let parentLv := parent.lv
        let parentReferId := parent.refer_id
        (parentLv + 1,
         if parentReferId ≠ "" then parentReferId ++ ";" ++ parent.id
         else parent.id)
  addNode s { id := id, name := name, wallet := wallet', refer := refer',
              refer_id := lvChain.2, lv := lvChain.1 }

/-- A caller that invokes `addNodeLite` inside `try { … } catch { … }`
(e.g. `DatabaseExecutor.addWallet`): on failure the store is untouched. -/
def tryAddNodeLite (s : RefStore) (wallet name refer id : String) : RefStore :=
  match addNodeLite s wallet name refer id with
  | .ok s' => s'
  | .error _ => s

/-- Stores reachable from the empty store by `addNodeLite` enrollments. -/
inductive ReachableStore : RefStore → Prop
  | empty : ReachableStore emptyStore
  | step (s : RefStore) (w n r i : String) (s' : RefStore) :
      ReachableStore s → addNodeLite s w n r i = .ok s' → ReachableStore s'

/-! ### Auxiliary string facts -/

theorem charToNat_ofNat_of_lt {n : Nat} (h : n < 55296) :
    (Char.ofNat n).toNat = n := by
  have hv : n.isValidChar := Or.inl h
  simp only [Char.ofNat, dif_pos hv, Char.toNat, Char.ofNatAux]
  rfl

theorem charToLower_idem (c : Char) :
    (Char.toLower c).toLower = Char.toLower c := by
  unfold Char.toLower
  by_cases h : c.toNat ≥ 65 ∧ c.toNat ≤ 90
  · simp only [if_pos h]
    rw [charToNat_ofNat_of_lt (by omega), if_neg (by omega)]
  · simp only [if_neg h]

theorem lower_idem (s : String) : lower (lower s) = lower s := by
  simp [lower, List.map_map, Function.comp_def, charToLower_idem]

theorem lower_eq_empty_iff (s : String) : lower s = "" ↔ s = "" := by
  constructor
  · intro h
    have : s.data.map Char.toLower = [] := congrArg String.data h
    cases s with
    | mk data => cases data <;> simp_all
  · rintro rfl; rfl

/-! ### Store lemmas -/

theorem lookup_none_countP (k : String) (l : List (String × NodeInfo))
    (h : l.lookup k = none) :
    l.countP (fun p => decide (p.1 = k)) = 0 := by
  induction l with
  | nil => simp
  | cons hd tl ih =>
    rw [List.lookup_cons] at h
    split at h
    · simp at h
    · rename_i hne
      have hk : ¬ hd.1 = k := by
        intro he
        rw [he] at hne
        simp at hne
      simp [List.countP_cons, hk, ih h]

/-- Unfolding characterisation of a successful `addNode`. -/
theorem addNode_ok {s : RefStore} {info : NodeInfo} {s' : RefStore}
    (h : addNode s info = .ok s') :
    s.nodes.lookup (lower info.wallet) = none ∧
    s' = { nodes := s.nodes ++ [(lower info.wallet,
             { id := info.id, name := info.name, wallet := lower info.wallet,
               refer := lower info.refer, refer_id := info.refer_id,
               lv := info.lv })],
           allWallets := sAddWallet s.allWallets (lower info.wallet) } := by
  simp only [addNode] at h
  split at h
  · simp at h
  · rename_i hex
    refine ⟨?_, by injection h with h; exact h.symm⟩
    rw [existsWallet, lower_idem] at hex
    exact Option.not_isSome_iff_eq_none.mp (by simpa using hex)

/-- Unfolding characterisation of a successful `addNodeLite`. -/
theorem addNodeLite_ok {s : RefStore} {w n r i : String} {s' : RefStore}
    (h : addNodeLite s w n r i = .ok s') :
    s.nodes.lookup (lower w) = none ∧
    ∃ nd : NodeInfo,
      nd.id = i ∧ nd.name = n ∧ nd.wallet = lower w ∧ nd.refer = lower r ∧
      (match s.nodes.lookup (lower r) with
       | none => nd.refer_id = "" ∧ nd.lv = 1
       | some p =>
         nd.lv = p.lv + 1 ∧
         nd.refer_id = (if p.refer_id ≠ "" then p.refer_id ++ ";" ++ p.id
                        else p.id)) ∧
      s' = { nodes := s.nodes ++ [(lower w, nd)],
             allWallets := sAddWallet s.allWallets (lower w) } := by
  unfold addNodeLite at h
  cases href : s.nodes.lookup (lower r) with
  | none =>
    have hex : existsWallet s (lower r) = false := by
      simp [existsWallet, lower_idem, href]
    simp only [hex, Bool.not_false, if_true] at h
    obtain ⟨h1, h2⟩ := addNode_ok h
    simp only [lower_idem] at h1 h2
    refine ⟨h1, ⟨{ id := i, name := n, wallet := lower w, refer := lower r,
                   refer_id := "", lv := 1 }, rfl, rfl, rfl, rfl, ?_, ?_⟩⟩
    · exact ⟨rfl, rfl⟩
    · exact h2
  | some p =>
    have hex : existsWallet s (lower r) = true := by
      simp [existsWallet, lower_idem, href]
    simp only [hex, Bool.not_true, href] at h
    rw [if_neg (by simp)] at h
    obtain ⟨h1, h2⟩ := addNode_ok h
    simp only [lower_idem] at h1 h2
    refine ⟨h1, ⟨{ id := i, name := n, wallet := lower w, refer := lower r,
                   refer_id := (if p.refer_id ≠ "" then p.refer_id ++ ";" ++ p.id
                                else p.id),
                   lv := p.lv + 1 }, rfl, rfl, rfl, rfl, ?_, ?_⟩⟩
    · exact ⟨rfl, rfl⟩
    · exact h2

theorem lookup_append_of_none {k : String} {l₁ l₂ : List (String × NodeInfo)}
    (h : l₁.lookup k = none) : (l₁ ++ l₂).lookup k = l₂.lookup k := by
  rw [List.lookup_append, h, Option.none_or]

theorem lookup_singleton_self (k : String) (v : NodeInfo) :
    ([(k, v)] : List (String × NodeInfo)).lookup k = some v := by
  simp [List.lookup_cons]

/-- The chain-string update performed by `addNodeLite` appends exactly the
parent id to the decoded ancestor chain, for separator-free parent ids. -/
theorem chainToList_extend (c x : String) (hx : x ≠ "") (hsep : ';' ∉ x.data) :
    chainToList (if c ≠ "" then c ++ ";" ++ x else x) =
      chainToList c ++ [x] := by
  by_cases hc : c = ""
  · subst hc
    simp [chainToList, splitChar_no_sep ';' x.data hsep, hx]
  · have hdata : (c ++ ";" ++ x).data = c.data ++ ';' :: x.data := by
      simp [String.data_append]
    have hne2 : ¬ (c ++ ";" ++ x) = "" := by
      intro hcontra
      have := congrArg String.data hcontra
      rw [hdata] at this
      simp at this
    simp only [if_pos hc, chainToList, if_neg hne2, if_neg hc, hdata]
    rw [splitChar_append_sep, splitChar_no_sep ';' x.data hsep]
    simp

/-! ### Claims about the store -/

/-- Claim C3: enrolling the same wallet twice, sequentially, leaves exactly
one stored node for it; the second insertion fails with the
duplicate-enrollment error of `RefRedis.addNode`, and a caller that catches
the failure (`tryAddNodeLite`) keeps the store — hence the stored node's
fields — unchanged. -/
theorem duplicateEnrollment_c3 (s : RefStore) (w n r i n₂ r₂ i₂ : String)
    (s' : RefStore) (hok : addNodeLite s w n r i = .ok s') :
    addNodeLite s' w n₂ r₂ i₂ =
      .error ("Node already exists for wallet: " ++ lower w) ∧
    tryAddNodeLite s' w n₂ r₂ i₂ = s' ∧
    s'.nodes.countP (fun p => decide (p.1 = lower w)) = 1 := by
  obtain ⟨h1, nd, -, -, -, -, -, hs'⟩ := addNodeLite_ok hok
  have hlook : s'.nodes.lookup (lower w) = some nd := by
    rw [hs']
    rw [lookup_append_of_none h1, lookup_singleton_self]
  have herr : addNodeLite s' w n₂ r₂ i₂ =
      .error ("Node already exists for wallet: " ++ lower w) := by
    have hex : existsWallet s' (lower w) = true := by
      simp [existsWallet, lower_idem, hlook]
    simp [addNodeLite, addNode, lower_idem, hex]
  refine ⟨herr, ?_, ?_⟩
  · rw [tryAddNodeLite, herr]
  · rw [hs']
    rw [List.countP_append, lookup_none_countP (lower w) s.nodes h1]
    simp

def c3WitnessStore : RefStore :=
  ⟨[("0xab", ⟨"seed1", "Alice", "0xab", "", "", 1⟩)], ["0xab"]⟩

theorem duplicateEnrollment_c3_witness :
    addNodeLite c3WitnessStore "0xAb" "Bob" "" "seed2" =
      .error ("Node already exists for wallet: " ++ lower "0xAb") ∧
    tryAddNodeLite c3WitnessStore "0xAb" "Bob" "" "seed2" = c3WitnessStore ∧
    c3WitnessStore.nodes.countP (fun p => decide (p.1 = lower "0xAb")) = 1 :=
  duplicateEnrollment_c3 emptyStore "0xAb" "Alice" "" "seed1" "Bob" "" "seed2"
    c3WitnessStore rfl

/-- Claim C10: `addNodeLite` with a non-empty referrer that is absent from
the store at call time creates a root-shaped node — level `1`, empty
ancestor chain — while still recording the (case-normalised) dangling
referrer in the node's `refer` field. -/
theorem danglingRefer_root_c10 (s : RefStore) (w n r i : String)
    (s' : RefStore) (hne : r ≠ "")
    (hdangling : s.nodes.lookup (lower r) = none)
    (hok : addNodeLite s w n r i = .ok s') :
    s'.nodes.lookup (lower w) =
      some { id := i, name := n, wallet := lower w, refer := lower r,
             refer_id := "", lv := 1 } ∧
    chainToList "" = [] ∧ lower r ≠ "" := by
  obtain ⟨h1, nd, hid, hname, hwallet, hrefer, hmatch, hs'⟩ := addNodeLite_ok hok
  rw [hdangling] at hmatch
  obtain ⟨hchain, hlv⟩ := hmatch
  have hnd : nd = { id := i, name := n, wallet := lower w, refer := lower r,
                    refer_id := "", lv := 1 } := by
    cases nd
    simp_all
  refine ⟨?_, rfl, by simpa [lower_eq_empty_iff] using hne⟩
  rw [hs', lookup_append_of_none h1, lookup_singleton_self, hnd]

def c10WitnessStore : RefStore :=
  ⟨[("0xb", ⟨"id1", "Bob", "0xb", "0xa", "", 1⟩)], ["0xb"]⟩

theorem danglingRefer_root_c10_witness :
    c10WitnessStore.nodes.lookup (lower "0xB") =
      some { id := "id1", name := "Bob", wallet := lower "0xB",
             refer := lower "0xA", refer_id := "", lv := 1 } ∧
    chainToList "" = [] ∧ lower "0xA" ≠ "" :=
  danglingRefer_root_c10 emptyStore "0xB" "Bob" "0xA" "id1" c10WitnessStore
    (by decide) rfl rfl

/-- The per-node level/ancestor-chain property claimed for every stored
node of a reachable store: roots have level 1 and an empty chain, and a
node whose referrer is currently stored has the referrer's level plus one
and the referrer's chain extended by the referrer's id. -/
def trackedNodeInvariant (s : RefStore) : Prop :=
  ∀ k nd, s.nodes.lookup k = some nd →
    (nd.refer = "" → nd.lv = 1 ∧ chainToList nd.refer_id = []) ∧
    (nd.refer ≠ "" → ∀ p, s.nodes.lookup nd.refer = some p →
      nd.lv = p.lv + 1 ∧
      chainToList nd.refer_id = chainToList p.refer_id ++ [p.id])

def c7CexStore1 : RefStore :=
  ⟨[("0xb", ⟨"id1", "B", "0xb", "0xa", "", 1⟩)], ["0xb"]⟩

def c7CexStore2 : RefStore :=
  ⟨[("0xb", ⟨"id1", "B", "0xb", "0xa", "", 1⟩),
    ("0xa", ⟨"id2", "A", "0xa", "", "", 1⟩)], ["0xb", "0xa"]⟩

/-- Claim C7 fails as stated: enrolling `0xb` with the then-dangling
referrer `0xa` and afterwards enrolling `0xa` as a root yields a reachable
store in which `0xb`'s referrer is stored with level 1 while `0xb` itself
also has level 1, not `1 + 1`. -/
theorem levelChain_global_c7_counterexample :
    ¬ (∀ s, ReachableStore s → trackedNodeInvariant s) := by
  intro hclaim
  have hreach1 : ReachableStore c7CexStore1 :=
    .step emptyStore "0xb" "B" "0xa" "id1" c7CexStore1 .empty rfl
  have hreach2 : ReachableStore c7CexStore2 :=
    .step c7CexStore1 "0xa" "A" "" "id2" c7CexStore2 hreach1 rfl
  have hb := hclaim c7CexStore2 hreach2 "0xb"
    ⟨"id1", "B", "0xb", "0xa", "", 1⟩ (by decide)
  have hlv := (hb.2 (by decide) ⟨"id2", "A", "0xa", "", "", 1⟩ (by decide)).1
  simp at hlv

/-- Claim C7, amended: the level/ancestor-chain relation holds with respect
to the store at enrollment time — a node enrolled while its referrer is
stored gets the referrer's level plus one and the referrer's chain
extended by the referrer's id, and a node enrolled with an absent
(including empty) referrer gets level 1 and an empty chain; the relation
to the referrer's current state can later be broken by enrolling a
previously dangling referrer. -/
theorem levelChain_creationTime_c7 (s : RefStore) (w n r i : String)
    (s' : RefStore) (hok : addNodeLite s w n r i = .ok s') :
    (s.nodes.lookup (lower r) = none →
      s'.nodes.lookup (lower w) =
        some { id := i, name := n, wallet := lower w, refer := lower r,
               refer_id := "", lv := 1 }) ∧
    (∀ p, s.nodes.lookup (lower r) = some p → p.id ≠ "" → ';' ∉ p.id.data →
      ∃ nd, s'.nodes.lookup (lower w) = some nd ∧ nd.lv = p.lv + 1 ∧
        chainToList nd.refer_id = chainToList p.refer_id ++ [p.id]) := by
  obtain ⟨h1, nd, hid, hname, hwallet, hrefer, hmatch, hs'⟩ := addNodeLite_ok hok
  constructor
  · intro href
    rw [href] at hmatch
    obtain ⟨hchain, hlv⟩ := hmatch
    have hnd : nd = { id := i, name := n, wallet := lower w, refer := lower r,
                      refer_id := "", lv := 1 } := by
      cases nd
      simp_all
    rw [hs', lookup_append_of_none h1, lookup_singleton_self, hnd]
  · intro p href hpid hpsep
    rw [href] at hmatch
    obtain ⟨hlv, hchain⟩ := hmatch
    refine ⟨nd, ?_, hlv, ?_⟩
    · rw [hs', lookup_append_of_none h1, lookup_singleton_self]
    · rw [hchain, chainToList_extend p.refer_id p.id hpid hpsep]

def c7WitnessParentStore : RefStore :=
  ⟨[("0xp", ⟨"idp", "P", "0xp", "", "", 1⟩)], ["0xp"]⟩

def c7WitnessChildStore : RefStore :=
  ⟨[("0xp", ⟨"idp", "P", "0xp", "", "", 1⟩),
    ("0xc", ⟨"idc", "C", "0xc", "0xp", "idp", 2⟩)], ["0xp", "0xc"]⟩

theorem levelChain_creationTime_c7_witness :
    (c7WitnessParentStore.nodes.lookup (lower "0xp") = none →
      c7WitnessChildStore.nodes.lookup (lower "0xc") =
        some { id := "idc", name := "C", wallet := lower "0xc",
               refer := lower "0xp", refer_id := "", lv := 1 }) ∧
    (∀ p, c7WitnessParentStore.nodes.lookup (lower "0xp") = some p →
      p.id ≠ "" → ';' ∉ p.id.data →
      ∃ nd, c7WitnessChildStore.nodes.lookup (lower "0xc") = some nd ∧
        nd.lv = p.lv + 1 ∧
        chainToList nd.refer_id = chainToList p.refer_id ++ [p.id]) :=
  levelChain_creationTime_c7 c7WitnessParentStore "0xc" "C" "0xp" "idc"
    c7WitnessChildStore rfl

/-! ## `TransactionProcessor` (src/src/db/redis.js)

Classifies one raw transaction (+ optional receipt) into the normalized
delta object: native movement from the `value` field, a type label from the
call payload's 4-byte selector, token movements decoded from receipt
`Transfer` logs. -/

/-- Drop trailing `'0'` characters. -/
def trimTrailingZeros (l : List Char) : List Char :=
  (l.reverse.dropWhile (· = '0')).reverse

/-- Left-pad a digit string with `'0'` to width `d`. -/
def padZeros (d : Nat) (s : String) : String :=
  String.mk (List.replicate (d - s.length) '0') ++ s

/-- Model of `ethers.formatUnits(value, decimals)` for non-negative values: decimal
string with the fraction's trailing zeros trimmed but at least one
fractional digit kept (`formatUnits 10^18 18 = "1.0"`,
`formatUnits 1 18 = "0.000000000000000001"`). -/
def formatUnits (v d : Nat) : String :=
  let base := 10 ^ d
  let fracStr := trimTrailingZeros (padZeros d (toString (v % base))).data
  toString (v / base) ++ "." ++
    (if fracStr.isEmpty then "0" else String.mk fracStr)

/-- Model of `ethers.formatEther` — 18 decimal places. -/
def formatEther (v : Nat) : String := formatUnits v 18

/-- JS truthiness of a nullable string (`null`/`undefined`/`""` are falsy). -/
def jsTruthy : Option String → Bool
  | none => false
  | some s => s ≠ ""

/-- JS `a || b` on nullable numbers (`null`/`undefined`/`0` are falsy). -/
def jsOrNat (a b : Option Nat) : Option Nat :=
  match a with
  | some v => if v = 0 then b else some v
  | none => b

/-- A raw transaction as supplied by the provider.  `txTo` models the
source's `to` (`null` for contract creations), `txFrom` its `from`;
`timestamp` is `none` when absent/`NaN`; `value` is the source's
`BigInt(transaction.value || '0')`; `data` is the call payload
(`""` models a missing field, normalised to `'0x'` by `|| '0x'`). -/
structure RawTx where
  hash : String
  blockNumber : Nat
  timestamp : Option Nat
  txFrom : String
  txTo : Option String
  value : Nat
  gasPrice : Nat
  gasLimit : Nat
  status : Option Nat
  data : String
  deriving Repr, DecidableEq

/-- One receipt log.  `data` holds the already-decoded `BigInt(log.data)`
amount (hex decoding is injective and not itself under test). -/
structure LogEntry where
  address : String
  topics : List String
  data : Nat
  deriving Repr, DecidableEq

structure Receipt where
  status : Nat
  gasUsed : Nat
  logs : List LogEntry
  deriving Repr, DecidableEq

structure TokenInfo where
  name : String
  symbol : String
  decimals : Nat
  deriving Repr, DecidableEq

/-- The `bnbChange` object: `fromDelta`/`toDelta` model the source's
`from`/`to` fields (reserved words in Lean). -/
structure BnbChange where
  fromDelta : String
  toDelta : String
  deriving Repr, DecidableEq

/-- One decoded ERC-20 `Transfer` event (`type` is always `'transfer'` in
the source and is omitted); `chFrom`/`chTo` model `from`/`to`. -/
structure Erc20Change where
  tokenAddress : String
  tokenSymbol : String
  tokenName : String
  tokenDecimals : Nat
  chFrom : String
  chTo : String
  value : Nat
  formattedValue : String
  deriving Repr, DecidableEq

/-- The ERC-20 `Transfer(address,address,uint256)` event signature hash. -/
def TRANSFER_EVENT_SIGNATURE : String :=
  "0xddf252ad1be2c89b69c2b068fc378daa952ba7f163c4a11628f55a4df523b3ef"

def ERC20_transfer : String := "0xa9059cbb"
def ERC20_transferFrom : String := "0x23b872dd"
def ERC20_approve : String := "0x095ea7b3"

/-- The values of the source's `ERC20_METHODS` selector table. -/
def ERC20_METHODS : List String :=
  [ERC20_transfer, ERC20_transferFrom, ERC20_approve, "0xdd62ed3e",
   "0x70a08231", "0x18160ddd", "0x06fdde03", "0x95d89b41", "0x313ce567"]

def isHexChar (c : Char) : Bool :=
  c.isDigit || ('a' ≤ c ∧ c ≤ 'f') || ('A' ≤ c ∧ c ≤ 'F')

/-- Shape check behind `ethers.isAddress` (checksum casing is immaterial
here: every consumer lower-cases before comparing). -/
def isAddress (s : String) : Bool :=
  s.length = 42 && s.take 2 = "0x" && (s.drop 2).data.all isHexChar

/-- Model of `TransactionProcessor.isEOA`: address-shape check plus a `getCode`
lookup expected to return `'0x'` for externally-owned accounts; lookup
failures are caught and yield `false`. -/
def isEOA (getCode : String → Except String String) (address : String) :
    Bool :=
  if ¬ isAddress address then false
  else
    match getCode address with
    | .ok code => code = "0x"
    | .error _ => false

/-- The mutable `result` object built by `parseTransaction`. -/
structure ParsedTx where
  hash : String
  blockNumber : Nat
  timestamp : Nat
  txFrom : String
  txTo : Option String
  value : Nat
  gasPrice : Nat
  gasLimit : Nat
  gasUsed : Nat
  status : Option Nat
  isTransfer : Bool
  isERC20Transaction : Bool
  isEOA : Bool
  bnbChange : BnbChange
  erc20Changes : List Erc20Change
  transactionType : String
  methodSignature : Option String
  inputData : String
  deriving Repr, DecidableEq

/-- Model of `analyzeBNBChange`: a positive value marks the transaction as a native
transfer and sets the sender delta to the negated amount; the recipient
delta is only written when the transaction has a (truthy) recipient. -/
def analyzeBNBChange (tx : RawTx) (result : ParsedTx) : ParsedTx :=
  if tx.value > 0 then
    { result with
      isTransfer := true
      transactionType := "bnb_transfer"
      bnbChange :=
        { fromDelta := "-" ++ formatEther tx.value
          toDelta := if jsTruthy tx.txTo then formatEther tx.value
                     else result.bnbChange.toDelta } }
  else result

/-- Model of `analyzeTransactionType`: an empty payload means `bnb_transfer` when
value > 0, else `contract_call`; otherwise the 4-byte selector is compared
against the ERC-20 method table. -/
def analyzeTransactionType (tx : RawTx) (result : ParsedTx) : ParsedTx :=
  let inputData := if tx.data = "" then "0x" else tx.data
  if inputData = "0x" ∨ inputData = "0x0" then
    if tx.value > 0 then
      { result with transactionType := "bnb_transfer", isTransfer := true }
    else
      { result with transactionType := "contract_call" }
  else
    let methodSignature := inputData.take 10
    let result := { result with methodSignature := some methodSignature }
    if ERC20_METHODS.contains methodSignature then
      let result := { result with
        isERC20Transaction := true, transactionType := "erc20_transaction" }
      if methodSignature = ERC20_transfer then
        { result with transactionType := "erc20_transfer" }
      else if methodSignature = ERC20_transferFrom then
        { result with transactionType := "erc20_transfer_from" }
      else if methodSignature = ERC20_approve then
        { result with transactionType := "erc20_approve" }
      else result
    else
      { result with transactionType := "contract_call" }

/-- The `'0x' + topics[i].slice(26)` extraction followed by
`ethers.getAddress` (which throws on malformed input — caught by the
caller, dropping the log entry); normalised to lowercase, see
`isAddress`. -/
def getAddressFromTopic (t : String) : Option String :=
  let addr := "0x" ++ t.drop 26
  if isAddress addr then some (lower addr) else none

/-- Model of `parseTransferEvent`: decode one `Transfer` log; any failure (missing
topics, malformed addresses) is caught and yields `null`.  `getTokenInfo`
is the metadata lookup, total because the source attaches
`Unknown`/`UNKNOWN`/`18` fallbacks to each sub-call. -/
def parseTransferEvent (getTokenInfo : String → TokenInfo) (log : LogEntry) :
    Option Erc20Change :=
  match log.topics.get? 1, log.topics.get? 2 with
  | some t1, some t2 =>
    match getAddressFromTopic t1, getAddressFromTopic t2 with
    | some f, some t =>
      let tokenInfo := getTokenInfo log.address
      some { tokenAddress := log.address, tokenSymbol := tokenInfo.symbol,
             tokenName := tokenInfo.name,
             tokenDecimals := tokenInfo.decimals,
             chFrom := f, chTo := t, value := log.data,
             formattedValue := formatUnits log.data tokenInfo.decimals }
    | _, _ => none
  | _, _ => none

/-- Model of `analyzeERC20Events`: each log matching the `Transfer` signature that
decodes successfully appends one entry and marks the transaction as an
ERC-20 transfer (`type` is always `'transfer'`, so `isTransfer` is set). -/
def analyzeERC20Events (getTokenInfo : String → TokenInfo)
    (logs : List LogEntry) (result : ParsedTx) : ParsedTx :=
  logs.foldl
    (fun result log =>
      if log.topics.get? 0 = some TRANSFER_EVENT_SIGNATURE then
        match parseTransferEvent getTokenInfo log with
        | some erc20Change =>
          { result with
            erc20Changes := result.erc20Changes ++ [erc20Change]
            isERC20Transaction := true
            isTransfer := true }
        | none => result
      else result)
    result

/-- The stages of `parseTransaction` before receipt-log decoding: the
initial `result` object, the `isEOA` probe on the recipient, then
`analyzeBNBChange` and `analyzeTransactionType`. -/
def parseTxPre (getCode : String → Except String String) (now : Nat)
    (tx : RawTx) (receipt : Option Receipt) : ParsedTx :=
  let result : ParsedTx :=
    { hash := tx.hash
      blockNumber := tx.blockNumber
      timestamp := match tx.timestamp with
                   | some t => if t = 0 then now else t
                   | none => now
      txFrom := tx.txFrom
      txTo := tx.txTo
      value := tx.value
      gasPrice := tx.gasPrice
      gasLimit := tx.gasLimit
      gasUsed := (receipt.map Receipt.gasUsed).getD 0
      status := jsOrNat (receipt.map Receipt.status) tx.status
      isTransfer := false
      isERC20Transaction := false
      isEOA := false
      bnbChange := ⟨"0", "0"⟩
      erc20Changes := []
      transactionType := "unknown"
      methodSignature := none
      inputData := if tx.data = "" then "0x" else tx.data }
  let result :=
    if jsTruthy tx.txTo then
      { result with isEOA := isEOA getCode (tx.txTo.getD "") }
    else result
  let result := analyzeBNBChange tx result
  analyzeTransactionType tx result

/-- Model of `parseTransaction`: assembles the normalized delta.  `now` models
`Date.now()/1000`, used when the transaction has no valid timestamp;
`getCode` backs the `isEOA` probe.  (The source's surrounding `try/catch`
can only fire on provider faults, which the oracles absorb, so the model
is total.) -/
def parseTransaction (getCode : String → Except String String)
    (getTokenInfo : String → TokenInfo) (now : Nat)
    (tx : RawTx) (receipt : Option Receipt) : ParsedTx :=
  match receipt with
  | some r =>
    analyzeERC20Events getTokenInfo r.logs (parseTxPre getCode now tx receipt)
  | none => parseTxPre getCode now tx receipt

/-- The `bnbChange` block of `formatOutput` (a `"0"` delta is a truthy JS
string, so the `'0 BNB'` fallback only fires on the empty string). -/
structure FormattedBnbChange where
  fromDelta : String
  toDelta : String
  formattedFrom : String
  formattedTo : String
  deriving Repr, DecidableEq

structure FormattedErc20Change where
  tokenAddress : String
  tokenSymbol : String
  tokenName : String
  chFrom : String
  chTo : String
  value : Nat
  formattedValue : String
  formatted : String
  deriving Repr, DecidableEq

/-- The object returned by `formatOutput` (its ISO timestamp rendering is
an injective presentation of the numeric timestamp and kept numeric
here). -/
structure FormattedTx where
  hash : String
  blockNumber : Nat
  timestamp : Nat
  txFrom : String
  txTo : Option String
  transactionType : String
  isTransfer : Bool
  isERC20Transaction : Bool
  isEOA : Bool
  bnbChange : FormattedBnbChange
  erc20Changes : List FormattedErc20Change
  gasPriceGwei : String
  gasLimit : Nat
  gasUsed : Nat
  status : Option Nat
  success : Bool
  deriving Repr, DecidableEq

/-- Model of `TransactionProcessor.formatOutput`. -/
def formatOutput (p : ParsedTx) : FormattedTx :=
  { hash := p.hash
    blockNumber := p.blockNumber
    timestamp := p.timestamp
    txFrom := p.txFrom
    txTo := p.txTo
    transactionType := p.transactionType
    isTransfer := p.isTransfer
    isERC20Transaction := p.isERC20Transaction
    isEOA := p.isEOA
    bnbChange :=
      { fromDelta := p.bnbChange.fromDelta
        toDelta := p.bnbChange.toDelta
        formattedFrom := if p.bnbChange.fromDelta ≠ "" then
            p.bnbChange.fromDelta ++ " BNB" else "0 BNB"
        formattedTo := if p.bnbChange.toDelta ≠ "" then
            p.bnbChange.toDelta ++ " BNB" else "0 BNB" }
    erc20Changes := p.erc20Changes.map fun change =>
      { tokenAddress := change.tokenAddress
        tokenSymbol := change.tokenSymbol
        tokenName := change.tokenName
        chFrom := change.chFrom
        chTo := change.chTo
        value := change.value
        formattedValue := change.formattedValue
        formatted := change.formattedValue ++ " " ++ change.tokenSymbol }
    gasPriceGwei := formatUnits p.gasPrice 9
    gasLimit := p.gasLimit
    gasUsed := p.gasUsed
    status := p.status
    success := p.status = some 1 }

/-- Decoding receipt logs touches neither the native-change object nor the
type label, and never clears `isTransfer`. -/
theorem analyzeERC20Events_preserve (gti : String → TokenInfo)
    (logs : List LogEntry) (result : ParsedTx) :
    (analyzeERC20Events gti logs result).bnbChange = result.bnbChange ∧
    (analyzeERC20Events gti logs result).transactionType =
      result.transactionType ∧
    (result.isTransfer = true →
      (analyzeERC20Events gti logs result).isTransfer = true) := by
  induction logs generalizing result with
  | nil => exact ⟨rfl, rfl, fun h => h⟩
  | cons log rest ih =>
    simp only [analyzeERC20Events, List.foldl_cons] at *
    by_cases hsig : log.topics.get? 0 = some TRANSFER_EVENT_SIGNATURE
    · simp only [hsig, if_true]
      cases hpe : parseTransferEvent gti log with
      | none => exact ih result
      | some c =>
        obtain ⟨hb, ht, hi⟩ := ih
          { result with
            erc20Changes := result.erc20Changes ++ [c]
            isERC20Transaction := true, isTransfer := true }
        exact ⟨hb, ht, fun _ => hi rfl⟩
    · simp only [hsig, if_false]
      exact ih result

/-- The transaction used to refute claim C6 as stated: empty payload,
positive value, but no recipient (`to = null`), so the recipient delta is
never written. -/
def c6CexTx : RawTx :=
  { hash := "0xh1", blockNumber := 100, timestamp := some 1700000000,
    txFrom := "0xa", txTo := none, value := 1, gasPrice := 0, gasLimit := 0,
    status := none, data := "0x" }

def zeroCodeOracle : String → Except String String := fun _ => .ok "0x"

def unknownTokenMeta : String → TokenInfo :=
  fun _ => ⟨"Unknown", "UNKNOWN", 18⟩

/-- Claim C6 fails as stated: for a transaction with input `'0x'`, value
`1` wei and `to = null`, the classifier does label it `bnb_transfer`
(the source's name for `native_transfer`) but leaves `toDelta` at `"0"`,
so `fromDelta` is not the negation of `toDelta`. -/
theorem nativeClassification_c6_counterexample :
    (parseTransaction zeroCodeOracle unknownTokenMeta 0 c6CexTx
        none).transactionType = "bnb_transfer" ∧
    (parseTransaction zeroCodeOracle unknownTokenMeta 0 c6CexTx
        none).bnbChange.fromDelta = "-0.000000000000000001" ∧
    (parseTransaction zeroCodeOracle unknownTokenMeta 0 c6CexTx
        none).bnbChange.toDelta = "0" ∧
    (parseTransaction zeroCodeOracle unknownTokenMeta 0 c6CexTx
        none).bnbChange.fromDelta ≠
      "-" ++ (parseTransaction zeroCodeOracle unknownTokenMeta 0 c6CexTx
        none).bnbChange.toDelta := by
  decide

/-- Claim C6, amended: with input data `'0x'` and positive value the
classification is `bnb_transfer` (spec name `native_transfer`) and, for
transactions that have a recipient, `fromDelta` is exactly the negation of
`toDelta` at 18-decimal precision; without a recipient `toDelta` stays
`"0"`.  With input `'0x'` and value zero the classification is
`contract_call`. -/
theorem nativeClassification_c6 (getCode : String → Except String String)
    (gti : String → TokenInfo) (now : Nat) (tx : RawTx)
    (receipt : Option Receipt) (hdata : tx.data = "0x") :
    (0 < tx.value →
      (parseTransaction getCode gti now tx receipt).transactionType =
        "bnb_transfer" ∧
      (parseTransaction getCode gti now tx receipt).isTransfer = true ∧
      (parseTransaction getCode gti now tx receipt).bnbChange.fromDelta =
        "-" ++ formatEther tx.value ∧
      (jsTruthy tx.txTo = true →
        (parseTransaction getCode gti now tx receipt).bnbChange.toDelta =
          formatEther tx.value ∧
        (parseTransaction getCode gti now tx receipt).bnbChange.fromDelta =
          "-" ++ (parseTransaction getCode gti now tx
            receipt).bnbChange.toDelta) ∧
      (jsTruthy tx.txTo = false →
        (parseTransaction getCode gti now tx receipt).bnbChange.toDelta =
          "0")) ∧
    (tx.value = 0 →
      (parseTransaction getCode gti now tx receipt).transactionType =
        "contract_call") := by
  have hpre : ∀ hv : 0 < tx.value,
      (parseTxPre getCode now tx receipt).transactionType = "bnb_transfer" ∧
      (parseTxPre getCode now tx receipt).isTransfer = true ∧
      (parseTxPre getCode now tx receipt).bnbChange =
        ⟨"-" ++ formatEther tx.value,
         if jsTruthy tx.txTo then formatEther tx.value else "0"⟩ := by
    intro hv
    by_cases hto : jsTruthy tx.txTo <;>
      simp [parseTxPre, hdata, hto, analyzeBNBChange, hv,
        analyzeTransactionType]
  have hpre0 : tx.value = 0 →
      (parseTxPre getCode now tx receipt).transactionType =
        "contract_call" := by
    intro hv
    by_cases hto : jsTruthy tx.txTo <;>
      simp [parseTxPre, hdata, hto, analyzeBNBChange, hv,
        analyzeTransactionType]
  cases receipt with
  | none =>
    refine ⟨fun hv => ?_, fun hv => hpre0 hv⟩
    obtain ⟨ht, hi, hb⟩ := hpre hv
    refine ⟨ht, hi, by rw [parseTransaction, hb], fun h => ?_, fun h => ?_⟩
    · rw [parseTransaction, hb]
      simp [h]
    · rw [parseTransaction, hb]
      simp [h]
  | some r =>
    obtain ⟨hb', ht', hi'⟩ := analyzeERC20Events_preserve gti r.logs
      (parseTxPre getCode now tx (some r))
    have hps : parseTransaction getCode gti now tx (some r) =
        analyzeERC20Events gti r.logs (parseTxPre getCode now tx (some r)) :=
      rfl
    refine ⟨fun hv => ?_, fun hv => by rw [hps, ht', hpre0 hv]⟩
    obtain ⟨ht, hi, hb⟩ := hpre hv
    refine ⟨by rw [hps, ht', ht], by rw [hps]; exact hi' hi,
      by rw [hps, hb', hb], fun h => ?_, fun h => ?_⟩
    · rw [hps, hb', hb]
      simp [h]
    · rw [hps, hb', hb]
      simp [h]

def c6WitnessTx : RawTx :=
  { hash := "0xh2", blockNumber := 101, timestamp := some 1700000100,
    txFrom := "0xa", txTo := some "0xb", value := 1500000000000000000,
    gasPrice := 0, gasLimit := 0, status := none, data := "0x" }

theorem nativeClassification_c6_witness :
    (parseTransaction zeroCodeOracle unknownTokenMeta 0 c6WitnessTx
        none).transactionType = "bnb_transfer" ∧
    (parseTransaction zeroCodeOracle unknownTokenMeta 0 c6WitnessTx
        none).bnbChange.fromDelta =
      "-" ++ (parseTransaction zeroCodeOracle unknownTokenMeta 0 c6WitnessTx
        none).bnbChange.toDelta ∧
    (parseTransaction zeroCodeOracle unknownTokenMeta 0 c6WitnessTx
        none).bnbChange.toDelta = "1.5" := by
  have h := nativeClassification_c6 zeroCodeOracle unknownTokenMeta 0
    c6WitnessTx none rfl
  obtain ⟨h1, h2, -, h4, -⟩ := h.1 (by decide)
  exact ⟨h1, (h4 (by decide)).2, by rw [(h4 (by decide)).1]; decide⟩

/-! ## `MessageTemplates.analyzeTransaction`
(src/cleanup_contract_address.js): the ActivityAnalyzer

Matches one formatted delta against the monitored-address set; only the
transaction's sender is treated as the monitored actor. -/

/-- JS `a || b` for nullable strings (`""` is falsy). -/
def jsOrString (a : Option String) (b : String) : String :=
  match a with
  | some s => if s = "" then b else s
  | none => b

/-- One `sent[]`/`received[]` entry.  `kind` models the source's `type`
(`'bnb'` or `'token'`); for `'bnb'` entries the token fields are absent in
the source and kept `""` here; `srcAddr`/`dstAddr` model `from`/`to`. -/
structure ActivityItem where
  kind : String
  tokenAddress : String
  tokenSymbol : String
  formattedValue : String
  srcAddr : String
  dstAddr : String
  deriving Repr, DecidableEq

/-- The analysis result object. -/
structure Activity where
  hasActivity : Bool
  walletName : String
  walletAddress : String
  received : List ActivityItem
  sent : List ActivityItem
  deriving Repr, DecidableEq

/-- The native-change half of the analyzer.  Returns `none` for the
`TypeError` thrown by `tx.to.toLowerCase()` when the branch is entered on
a recipient-less transaction (the caller catches it per transaction). -/
def analyzeBnbPart (tx : FormattedTx) (monitoredAddresses : List String)
    (analysis : Activity) : Option Activity :=
  if tx.bnbChange.fromDelta ≠ "0" ∨ tx.bnbChange.toDelta ≠ "0" then
    match tx.txTo with
    | none => none
    | some t =>
      let fromAddress := lower tx.txFrom
      let toAddress := lower t
      if monitoredAddresses.contains fromAddress then
        let analysis := { analysis with hasActivity := true }
        if tx.bnbChange.fromDelta ≠ "0" then
          some { analysis with
            sent := analysis.sent ++
              [⟨"bnb", "", "", tx.bnbChange.fromDelta, fromAddress,
                toAddress⟩] }
        else some analysis
      else some analysis
  else some analysis

/-- The per-change body of the ERC-20 loop. -/
def erc20Step (txFromAddress : String) (analysis : Activity)
    (change : FormattedErc20Change) : Activity :=
  let fromAddress := lower change.chFrom
  let toAddress := lower change.chTo
  let analysis :=
    if toAddress = txFromAddress then
      { analysis with
        received := analysis.received ++
          [⟨"token", change.tokenAddress, change.tokenSymbol,
            change.formattedValue, fromAddress, toAddress⟩] }
    else analysis
  if fromAddress = txFromAddress then
    { analysis with
      sent := analysis.sent ++
        [⟨"token", change.tokenAddress, change.tokenSymbol,
          change.formattedValue, fromAddress, toAddress⟩] }
  else analysis

/-- The ERC-20 half of the analyzer. -/
def analyzeErc20Part (tx : FormattedTx) (monitoredAddresses : List String)
    (analysis : Activity) : Activity :=
  if tx.erc20Changes ≠ [] then
    if monitoredAddresses.contains (lower tx.txFrom) then
      tx.erc20Changes.foldl (erc20Step (lower tx.txFrom))
        { analysis with hasActivity := true }
    else analysis
  else analysis

/-- Model of `MessageTemplates.analyzeTransaction`. -/
def analyzeTransaction (tx : FormattedTx) (monitoredAddresses : List String)
    (addressNames : List (String × String)) : Option Activity :=
  let analysis : Activity :=
    { hasActivity := false
      walletName := jsOrString (addressNames.lookup (lower tx.txFrom))
        "Unknown"
      walletAddress := tx.txFrom
      received := []
      sent := [] }
  (analyzeBnbPart tx monitoredAddresses analysis).map
    (analyzeErc20Part tx monitoredAddresses)

/-- The ERC-20 loop never changes `hasActivity` and never removes
entries. -/
theorem erc20Fold_hasActivity (txFrom : String)
    (changes : List FormattedErc20Change) (analysis : Activity) :
    (changes.foldl (erc20Step txFrom) analysis).hasActivity =
      analysis.hasActivity := by
  induction changes generalizing analysis with
  | nil => rfl
  | cons c rest ih =>
    rw [List.foldl_cons, ih]
    unfold erc20Step
    by_cases h1 : lower c.chTo = txFrom <;>
      by_cases h2 : lower c.chFrom = txFrom <;> simp [h1, h2]

theorem erc20Fold_entries_empty (txFrom : String)
    (changes : List FormattedErc20Change) (analysis : Activity)
    (hsent : (changes.foldl (erc20Step txFrom) analysis).sent = [])
    (hrecv : (changes.foldl (erc20Step txFrom) analysis).received = []) :
    analysis.sent = [] ∧ analysis.received = [] := by
  induction changes generalizing analysis with
  | nil => exact ⟨hsent, hrecv⟩
  | cons c rest ih =>
    rw [List.foldl_cons] at hsent hrecv
    obtain ⟨h1, h2⟩ := ih _ hsent hrecv
    unfold erc20Step at h1 h2
    by_cases hto : lower c.chTo = txFrom <;>
      by_cases hfrom : lower c.chFrom = txFrom <;>
      simp_all

theorem analyzeErc20Part_true (tx : FormattedTx) (mon : List String)
    (b : Activity) (hb : b.hasActivity = true) :
    (analyzeErc20Part tx mon b).hasActivity = true := by
  unfold analyzeErc20Part
  split
  · split
    · rw [erc20Fold_hasActivity]
    · exact hb
  · exact hb

theorem analyzeErc20Part_spec0 (tx : FormattedTx) (mon : List String)
    (b : Activity) (hb : b.hasActivity = false) (hs : b.sent = [])
    (hr : b.received = []) :
    ((analyzeErc20Part tx mon b).hasActivity =
      (decide (tx.erc20Changes ≠ []) && mon.contains (lower tx.txFrom))) ∧
    ((analyzeErc20Part tx mon b).hasActivity = false →
      (analyzeErc20Part tx mon b).sent = [] ∧
      (analyzeErc20Part tx mon b).received = []) := by
  unfold analyzeErc20Part
  by_cases he : tx.erc20Changes ≠ []
  · by_cases hm : mon.contains (lower tx.txFrom)
    · rw [if_pos he, if_pos hm]
      constructor
      · rw [erc20Fold_hasActivity, hm, Bool.and_true]
        simp [he]
      · intro hfalse
        rw [erc20Fold_hasActivity] at hfalse
        simp at hfalse
    · rw [if_pos he, if_neg hm]
      refine ⟨?_, fun _ => ⟨hs, hr⟩⟩
      simp only [Bool.not_eq_true] at hm
      rw [hm, Bool.and_false]
      exact hb
  · rw [if_neg he]
    refine ⟨?_, fun _ => ⟨hs, hr⟩⟩
    simp [hb, he]

/-- Claim C2, amended: `hasActivity` is true iff the transaction's sender
is monitored and the delta carries a nonzero native change or at least one
token change.  Every produced `sent`/`received` entry implies
`hasActivity`, but not conversely: `hasActivity` can be true with both
lists empty (token changes none of which touch the sender).  The result is
`some` whenever the analyzer does not crash on a recipient-less native
delta. -/
theorem activityIff_c2 (tx : FormattedTx) (mon : List String)
    (names : List (String × String)) (a : Activity)
    (h : analyzeTransaction tx mon names = some a) :
    (a.hasActivity = true ↔
      (mon.contains (lower tx.txFrom) = true ∧
        ((tx.bnbChange.fromDelta ≠ "0" ∨ tx.bnbChange.toDelta ≠ "0") ∨
          tx.erc20Changes ≠ []))) ∧
    (a.hasActivity = false → a.sent = [] ∧ a.received = []) ∧
    ((a.sent ≠ [] ∨ a.received ≠ []) → a.hasActivity = true) := by
  simp only [analyzeTransaction] at h
  obtain ⟨b, hb, rfl⟩ : ∃ b, analyzeBnbPart tx mon
      { hasActivity := false
        walletName := jsOrString (names.lookup (lower tx.txFrom)) "Unknown"
        walletAddress := tx.txFrom
        received := []
        sent := [] } = some b ∧ a = analyzeErc20Part tx mon b := by
    cases hx : analyzeBnbPart tx mon _ with
    | none => rw [hx] at h; simp at h
    | some b => rw [hx] at h; simp at h; exact ⟨b, rfl, h.symm⟩
  by_cases hbnb : tx.bnbChange.fromDelta ≠ "0" ∨ tx.bnbChange.toDelta ≠ "0"
  · unfold analyzeBnbPart at hb
    rw [if_pos hbnb] at hb
    cases hto : tx.txTo with
    | none => rw [hto] at hb; simp at hb
    | some t =>
      rw [hto] at hb
      by_cases hm : mon.contains (lower tx.txFrom)
      · simp only [hm, if_true] at hb
        have hbtrue : b.hasActivity = true := by
          by_cases hf : tx.bnbChange.fromDelta ≠ "0"
          · rw [if_pos hf] at hb
            injection hb with hb
            rw [← hb]
          · rw [if_neg hf] at hb
            injection hb with hb
            rw [← hb]
        have hatrue := analyzeErc20Part_true tx mon b hbtrue
        refine ⟨iff_of_true hatrue ⟨hm, Or.inl hbnb⟩, ?_, fun _ => hatrue⟩
        intro hfalse
        rw [hatrue] at hfalse
        simp at hfalse
      · simp only [hm, if_false] at hb
        injection hb with hb
        obtain ⟨hspec, hempty⟩ := analyzeErc20Part_spec0 tx mon b
          (by rw [← hb]) (by rw [← hb]) (by rw [← hb])
        have hmb : mon.contains (lower tx.txFrom) = false := by
          simpa using hm
        constructor
        · rw [hspec, hmb]
          simp
        · refine ⟨hempty, fun hne => ?_⟩
          rcases hne with hne | hne
          · by_contra hfalse
            simp only [Bool.not_eq_true] at hfalse
            exact hne (hempty hfalse).1
          · by_contra hfalse
            simp only [Bool.not_eq_true] at hfalse
            exact hne (hempty hfalse).2
  · unfold analyzeBnbPart at hb
    rw [if_neg hbnb] at hb
    injection hb with hb
    obtain ⟨hspec, hempty⟩ := analyzeErc20Part_spec0 tx mon b
      (by rw [← hb]) (by rw [← hb]) (by rw [← hb])
    constructor
    · rw [hspec]
      constructor
      · intro htrue
        simp only [Bool.and_eq_true, decide_eq_true_eq] at htrue
        exact ⟨htrue.2, Or.inr htrue.1⟩
      · rintro ⟨hmon, hcase | hcase⟩
        · exact absurd hcase hbnb
        · rw [hmon, Bool.and_true]
          simp [hcase]
    · refine ⟨hempty, fun hne => ?_⟩
      rcases hne with hne | hne
      · by_contra hfalse
        simp only [Bool.not_eq_true] at hfalse
        exact hne (hempty hfalse).1
      · by_contra hfalse
        simp only [Bool.not_eq_true] at hfalse
        exact hne (hempty hfalse).2

/-- The delta refuting claim C2 as stated: the monitored sender `0xa`
initiates a zero-value transaction whose receipt carries one token
transfer between two third parties `0xb → 0xc`. -/
def c2CexTx : FormattedTx :=
  { hash := "0xh3", blockNumber := 1, timestamp := 0, txFrom := "0xa",
    txTo := some "0xc", transactionType := "erc20_transaction",
    isTransfer := true, isERC20Transaction := true, isEOA := false,
    bnbChange := ⟨"0", "0", "0 BNB", "0 BNB"⟩,
    erc20Changes := [⟨"0xt", "TKN", "Token", "0xb", "0xc", 5, "5.0",
      "5.0 TKN"⟩],
    gasPriceGwei := "0.0", gasLimit := 0, gasUsed := 0, status := some 1,
    success := true }

/-- Claim C2 fails as stated: on `c2CexTx` with monitored set `{0xa}` the
analyzer returns `hasActivity = true` with empty `sent` and `received`. -/
theorem activityIff_c2_counterexample :
    (analyzeTransaction c2CexTx ["0xa"] []).map Activity.hasActivity =
      some true ∧
    (analyzeTransaction c2CexTx ["0xa"] []).map Activity.sent = some [] ∧
    (analyzeTransaction c2CexTx ["0xa"] []).map Activity.received =
      some [] := by
  decide

def c2WitnessTx : FormattedTx :=
  { hash := "0xh4", blockNumber := 2, timestamp := 0, txFrom := "0xa",
    txTo := some "0xc", transactionType := "bnb_transfer",
    isTransfer := true, isERC20Transaction := false, isEOA := true,
    bnbChange := ⟨"-1.0", "1.0", "-1.0 BNB", "1.0 BNB"⟩,
    erc20Changes := [], gasPriceGwei := "0.0", gasLimit := 0, gasUsed := 0,
    status := some 1, success := true }

def c2WitnessActivity : Activity :=
  { hasActivity := true, walletName := "Alice", walletAddress := "0xa",
    received := [],
    sent := [⟨"bnb", "", "", "-1.0", "0xa", "0xc"⟩] }

theorem activityIff_c2_witness :
    (c2WitnessActivity.hasActivity = true ↔
      ((["0xa"] : List String).contains (lower c2WitnessTx.txFrom) = true ∧
        ((c2WitnessTx.bnbChange.fromDelta ≠ "0" ∨
          c2WitnessTx.bnbChange.toDelta ≠ "0") ∨
          c2WitnessTx.erc20Changes ≠ []))) ∧
    (c2WitnessActivity.hasActivity = false →
      c2WitnessActivity.sent = [] ∧ c2WitnessActivity.received = []) ∧
    ((c2WitnessActivity.sent ≠ [] ∨ c2WitnessActivity.received ≠ []) →
      c2WitnessActivity.hasActivity = true) :=
  activityIff_c2 c2WitnessTx ["0xa"] [("0xa", "Alice")] c2WitnessActivity
    (by decide)

/-! ## `WalletMonitor` (src/unnamed/part_002)

The monitor loop, the new-wallet detection paths and enrollment. -/

/-- Digit-list to number, most significant first. -/
def digitsToNat (l : List Char) : Nat :=
  l.foldl (fun acc c => acc * 10 + (c.toNat - 48)) 0

/-- ECMAScript `StringToBigInt` restricted to the forms that occur here:
optional sign followed by decimal digits; the empty string is `0`; any
other string — in particular one containing a decimal point — is NaN,
modelled as `none`. -/
def stringToBigInt (s : String) : Option Int :=
  match s.data with
  | [] => some 0
  | c :: rest =>
    if c = '-' then
      if rest ≠ [] ∧ rest.all Char.isDigit then
        some (-(digitsToNat rest : Int))
      else none
    else if c = '+' then
      if rest ≠ [] ∧ rest.all Char.isDigit then some (digitsToNat rest : Int)
      else none
    else if (c :: rest).all Char.isDigit then
      some (digitsToNat (c :: rest) : Int)
    else none

/-- The JS comparison `s >= n` between a string and a `BigInt`: the string
is converted with `StringToBigInt`; a failed conversion makes the
comparison `false` (undefined relational result). -/
def jsGeStringBigInt (s : String) (n : Int) : Bool :=
  match stringToBigInt s with
  | some m => decide (n ≤ m)
  | none => false

theorem stringToBigInt_none_of_dot (s : String) (h : '.' ∈ s.data) :
    stringToBigInt s = none := by
  have hdigit : ∀ l : List Char, '.' ∈ l → l.all Char.isDigit = false := by
    intro l hl
    rw [List.all_eq_false]
    exact ⟨'.', hl, by decide⟩
  unfold stringToBigInt
  cases hs : s.data with
  | nil => rw [hs] at h; simp at h
  | cons c rest =>
    rw [hs] at h
    by_cases hminus : c = '-'
    · have hr : '.' ∈ rest := by
        rcases List.mem_cons.mp h with h | h
        · rw [hminus] at h; simp at h
        · exact h
      simp [hminus, hdigit rest hr]
    · by_cases hplus : c = '+'
      · have hr : '.' ∈ rest := by
          rcases List.mem_cons.mp h with h | h
          · rw [hplus] at h; simp at h
          · exact h
        simp [hminus, hplus, hdigit rest hr]
      · simp [hminus, hplus, hdigit (c :: rest) h]

theorem dot_mem_formatUnits (v d : Nat) : '.' ∈ (formatUnits v d).data := by
  unfold formatUnits
  simp [String.data_append]

/-- The broken minimum-value check of the native path: because
`bnbChange.to` is an ether-denominated decimal string (always containing
a `'.'`) while `config.minValue` is a wei `BigInt`, the comparison is
`false` for every formatted amount and every threshold. -/
theorem jsGe_formatEther_false (v : Nat) (n : Int) :
    jsGeStringBigInt (formatEther v) n = false := by
  unfold jsGeStringBigInt
  rw [show formatEther v = formatUnits v 18 from rfl,
    stringToBigInt_none_of_dot _ (dot_mem_formatUnits v 18)]

/-- Model of `WalletMonitor.checkNewWalletFromBNB`: returns the
`(walletAddress, fromAddress)` pair handed to `addNewWallet` when the
native-only path fires, `none` otherwise.  `none` also models the
`TypeError` on a recipient-less transaction, caught by `checkNewWallet`.
`isEOAResult` stands for the awaited `scanner.processor.isEOA` probe. -/
def checkNewWalletFromBNB (monitoredAddresses : List String)
    (cfgMinValue : Int) (isEOAResult : String → Bool) (tx : FormattedTx) :
    Option (String × String) :=
  match tx.txTo with
  | none => none
  | some t =>
    let toAddress := lower t
    if ¬ monitoredAddresses.contains toAddress then
      let hasBNBTransfer :=
        tx.bnbChange.fromDelta ≠ "0" ∨ tx.bnbChange.toDelta ≠ "0"
      let hasNoERC20Transfer := tx.erc20Changes = []
      let minValue := jsGeStringBigInt tx.bnbChange.toDelta cfgMinValue
      if hasBNBTransfer ∧ hasNoERC20Transfer ∧ minValue = true then
        if isEOAResult toAddress then some (toAddress, lower tx.txFrom)
        else none
      else none
    else none

/-- The failing input for claim C5: a pure 1-BNB transfer to an untracked
EOA with the configured minimum at `0` wei. -/
def c5FailingTx : RawTx :=
  { hash := "0xh5", blockNumber := 200, timestamp := some 1700000200,
    txFrom := "0xaaaaaaaaaaaaaaaaaaaaaaaaaaaaaaaaaaaaaaaa",
    txTo := some "0xbbbbbbbbbbbbbbbbbbbbbbbbbbbbbbbbbbbbbbbb",
    value := 1000000000000000000, gasPrice := 0, gasLimit := 0,
    status := none, data := "0x" }

/-- Claim C5 fails on the code: for a 1-BNB pure native transfer to an
untracked non-contract recipient with minimum `0`, the recipient is *not*
treated as an enrollment candidate — the string/BigInt comparison
`"1.0" >= 0n` is `false` in JS — although the received amount (`10^18`
wei) meets the minimum and the recipient is an EOA; by
`jsGe_formatEther_false` the native path can never fire. -/
theorem nativeEligibility_c5_failing :
    (formatOutput (parseTransaction zeroCodeOracle unknownTokenMeta 0
      c5FailingTx none)).bnbChange.toDelta = "1.0" ∧
    jsGeStringBigInt "1.0" 0 = false ∧
    isEOA zeroCodeOracle "0xbbbbbbbbbbbbbbbbbbbbbbbbbbbbbbbbbbbbbbbb" =
      true ∧
    (0 : Int) ≤ 1000000000000000000 ∧
    checkNewWalletFromBNB [] 0 (isEOA zeroCodeOracle)
      (formatOutput (parseTransaction zeroCodeOracle unknownTokenMeta 0
        c5FailingTx none)) = none := by
  refine ⟨by decide, by decide, by decide, by decide, ?_⟩
  have h := jsGe_formatEther_false 1000000000000000000 0
  simp only [checkNewWalletFromBNB]
  decide

/-! ### `WalletMonitor.addNewWallet` (enrollment) -/

/-- A queued outbound message (`TgBot.sendHtml` enqueues exactly one). -/
structure Alert where
  chatId : String
  html : String
  threadId : Option String
  deriving Repr, DecidableEq

/-- Model of `MessageTemplates.newWallet` (whitespace trimming of the template
literal elided). -/
def newWalletMessage (wallet name refer referName : String) : String :=
  "<b>🆕 新钱包发现</b>\n\n<b>地址:</b> <code>" ++ wallet ++
    "</code>\n<b>名称:</b> " ++ name ++ "\n<b>上级:</b> " ++ referName ++
    " (<code>" ++ refer ++ "</code>)\n\n<b>已自动添加到监控列表</b>"

/-- JS `Set.prototype.add` on an insertion-ordered set. -/
def addToSet (l : List String) (x : String) : List String :=
  if l.contains x then l else l ++ [x]

/-- JS `Map.prototype.set`. -/
def mapSet (m : List (String × String)) (k v : String) :
    List (String × String) :=
  match m with
  | [] => [(k, v)]
  | (k', v') :: rest =>
    if k' = k then (k, v) :: rest else (k', v') :: mapSet rest k v

/-- Model of `scanner.addWatchedAddress`: validates the address shape, then adds
the lowercased address. -/
def addWatchedAddress (watched : List String) (address : String) :
    List String :=
  if isAddress address then addToSet watched (lower address) else watched

/-- The monitor state touched by `addNewWallet`: the Redis store, the
in-memory caches, the scanner's watched set, the outbound queue and the
counters. -/
structure MonState where
  redisStore : RefStore
  monitoredAddresses : List String
  addressNames : List (String × String)
  watchedAddresses : List String
  outbox : List Alert
  sentNotifications : Nat
  newWalletsAdded : Nat
  deriving Repr, DecidableEq

/-- Model of `WalletMonitor.addNewWallet`: skips wallets already stored or flagged
as exchange-custodied, otherwise updates the in-memory caches, queues one
new-wallet alert and bumps the counters.  The source's
`await this.redis.addNodeLite(walletAddress, fromName, fromAddress)` line
is commented out, so no branch writes `redisStore`. -/
def addNewWallet (isCex : String → Bool) (chatId : String)
    (threadId : Option String) (st : MonState)
    (walletAddress fromAddress : String) : MonState :=
  if existsWallet st.redisStore walletAddress then st
  else
    let fromName := jsOrString (st.addressNames.lookup fromAddress) "Unknown"
    if isCex walletAddress then st
    else
      { st with
        monitoredAddresses := addToSet st.monitoredAddresses walletAddress
        addressNames := mapSet st.addressNames (lower walletAddress) fromName
        watchedAddresses := addWatchedAddress st.watchedAddresses
          walletAddress
        outbox := st.outbox ++
          [⟨chatId, newWalletMessage walletAddress fromName fromAddress
              fromName, threadId⟩]
        sentNotifications := st.sentNotifications + 1
        newWalletsAdded := st.newWalletsAdded + 1 }

def c1State0 : MonState :=
  { redisStore := emptyStore
    monitoredAddresses := ["0xaaaaaaaaaaaaaaaaaaaaaaaaaaaaaaaaaaaaaaaa"]
    addressNames := [("0xaaaaaaaaaaaaaaaaaaaaaaaaaaaaaaaaaaaaaaaa", "Alice")]
    watchedAddresses := ["0xaaaaaaaaaaaaaaaaaaaaaaaaaaaaaaaaaaaaaaaa"]
    outbox := []
    sentNotifications := 0
    newWalletsAdded := 0 }

/-- Claim C1 fails on the code: enrollment never persists the node — the
`addNodeLite` call is commented out — so for every input the Redis store
is left untouched; at the concrete eligible input the store still reports
the wallet as absent afterwards, while exactly one enrollment alert was
queued and the in-memory caches were updated. -/
theorem enrollPersistence_c1_failing :
    (∀ (isCex : String → Bool) (chatId : String) (threadId : Option String)
      (st : MonState) (w f : String),
      (addNewWallet isCex chatId threadId st w f).redisStore =
        st.redisStore) ∧
    (addNewWallet (fun _ => false) "-4940120432" none c1State0
        "0xbbbbbbbbbbbbbbbbbbbbbbbbbbbbbbbbbbbbbbbb"
        "0xaaaaaaaaaaaaaaaaaaaaaaaaaaaaaaaaaaaaaaaa").outbox.length = 1 ∧
    existsWallet
      (addNewWallet (fun _ => false) "-4940120432" none c1State0
        "0xbbbbbbbbbbbbbbbbbbbbbbbbbbbbbbbbbbbbbbbb"
        "0xaaaaaaaaaaaaaaaaaaaaaaaaaaaaaaaaaaaaaaaa").redisStore
      "0xbbbbbbbbbbbbbbbbbbbbbbbbbbbbbbbbbbbbbbbb" = false ∧
    (addNewWallet (fun _ => false) "-4940120432" none c1State0
        "0xbbbbbbbbbbbbbbbbbbbbbbbbbbbbbbbbbbbbbbbb"
        "0xaaaaaaaaaaaaaaaaaaaaaaaaaaaaaaaaaaaaaaaa").monitoredAddresses.contains
      "0xbbbbbbbbbbbbbbbbbbbbbbbbbbbbbbbbbbbbbbbb" = true := by
  refine ⟨fun isCex chatId threadId st w f => ?_, by decide, by decide,
    by decide⟩
  unfold addNewWallet
  split
  · rfl
  · split
    · rfl
    · rfl

/-! ### `WalletMonitor.scanNewBlocks` / `startMonitoringLoop` -/

/-- Observable steps of one `scanNewBlocks` tick, in execution order. -/
inductive ScanAction where
  | scanned (startBlock endBlock : Nat)
  | processed (txCount : Nat)
  | checkpointWrite (blockNumber : Nat)
  deriving Repr, DecidableEq

def isCheckpointWrite : ScanAction → Bool
  | .checkpointWrite _ => true
  | _ => false

/-- The loop state read and written by `scanNewBlocks`. -/
structure LoopState where
  lastProcessedBlock : Nat
  processedBlocks : Nat
  foundTransactions : Nat
  deriving Repr, DecidableEq

/-- Model of `WalletMonitor.scanNewBlocks` as a state transition plus its action
trace.  `currentBlock` is the oracle answer of `getLatestBlockNumber`
(`0` on provider failure) and `resultCount` the number of deltas returned
by the parallel scan.  A tick with no new blocks returns unchanged with an
empty trace; otherwise the batch `[checkpoint+1, endBlock]` is scanned,
the results processed (only when non-empty), and the checkpoint written
exactly once, last. -/
def scanNewBlocks (cfgBatchSize : Nat) (currentBlock resultCount : Nat)
    (st : LoopState) : LoopState × List ScanAction :=
  if currentBlock ≤ st.lastProcessedBlock then (st, [])
  else
    let startBlock := st.lastProcessedBlock + 1
    let totalBlocksToProcess := currentBlock - st.lastProcessedBlock
    let batchSize :=
      if totalBlocksToProcess > 20 then min 20 totalBlocksToProcess
      else cfgBatchSize
    let endBlock := min currentBlock (startBlock + batchSize - 1)
    ({ lastProcessedBlock := endBlock
       processedBlocks := st.processedBlocks + (endBlock - startBlock + 1)
       foundTransactions := st.foundTransactions + resultCount },
     [ScanAction.scanned startBlock endBlock] ++
       (if resultCount > 0 then [ScanAction.processed resultCount]
        else []) ++
       [ScanAction.checkpointWrite endBlock])

/-- Model of `startMonitoringLoop`: ticks run sequentially; a failed tick (caught
by the loop's `try/catch`) leaves the checkpoint untouched, which is the
`currentBlock = 0` oracle case of `scanNewBlocks`. -/
def runTicks (cfgBatchSize : Nat) : List (Nat × Nat) → LoopState → LoopState
  | [], st => st
  | (cur, res) :: rest, st =>
    runTicks cfgBatchSize rest (scanNewBlocks cfgBatchSize cur res st).1

theorem scanNewBlocks_mono (cfg cur res : Nat) (st : LoopState) :
    st.lastProcessedBlock ≤
      (scanNewBlocks cfg cur res st).1.lastProcessedBlock := by
  unfold scanNewBlocks
  by_cases hcur : cur ≤ st.lastProcessedBlock
  · simp [hcur]
  · rw [if_neg hcur]
    dsimp only
    by_cases hbehind : cur - st.lastProcessedBlock > 20
    · rw [if_pos hbehind]; omega
    · rw [if_neg hbehind]; omega

theorem runTicks_mono (cfg : Nat) (ticks : List (Nat × Nat))
    (st : LoopState) :
    st.lastProcessedBlock ≤ (runTicks cfg ticks st).lastProcessedBlock := by
  induction ticks generalizing st with
  | nil => exact Nat.le_refl _
  | cons t rest ih =>
    exact Nat.le_trans (scanNewBlocks_mono cfg t.1 t.2 st)
      (ih (scanNewBlocks cfg t.1 t.2 st).1)

/-- Claim C9: the checkpoint is monotone within a tick and across any tick
sequence (never rewound); per tick it is written at most once, any write
is the final action of the trace, strictly advances the checkpoint to the
new state's value, and is preceded by the scan of the full batch
`[checkpoint+1, endBlock]` and by the processing step whenever the scan
returned transactions. -/
theorem checkpointMonotonic_c9 (cfg cur res : Nat) (st : LoopState)
    (hcfg : 1 ≤ cfg) :
    st.lastProcessedBlock ≤
      (scanNewBlocks cfg cur res st).1.lastProcessedBlock ∧
    ((scanNewBlocks cfg cur res st).2.countP isCheckpointWrite) ≤ 1 ∧
    (∀ b, ScanAction.checkpointWrite b ∈ (scanNewBlocks cfg cur res st).2 →
      st.lastProcessedBlock < b ∧
      b = (scanNewBlocks cfg cur res st).1.lastProcessedBlock ∧
      (scanNewBlocks cfg cur res st).2.getLast? =
        some (ScanAction.checkpointWrite b) ∧
      ScanAction.scanned (st.lastProcessedBlock + 1) b ∈
        (scanNewBlocks cfg cur res st).2 ∧
      (0 < res → ScanAction.processed res ∈
        (scanNewBlocks cfg cur res st).2)) ∧
    (∀ ticks, st.lastProcessedBlock ≤
      (runTicks cfg ticks st).lastProcessedBlock) := by
  refine ⟨scanNewBlocks_mono cfg cur res st, ?_, ?_, fun ticks =>
    runTicks_mono cfg ticks st⟩
  · unfold scanNewBlocks
    by_cases hcur : cur ≤ st.lastProcessedBlock
    · simp [hcur]
    · simp only [hcur, if_false]
      by_cases hres : res > 0 <;> simp [hres, isCheckpointWrite,
        List.countP_cons, List.countP_append]
  · intro b hmem
    unfold scanNewBlocks at hmem ⊢
    by_cases hcur : cur ≤ st.lastProcessedBlock
    · simp [hcur] at hmem
    · have hlt : st.lastProcessedBlock < cur := Nat.lt_of_not_le hcur
      simp only [hcur, if_false] at hmem ⊢
      by_cases hres : res > 0
      · simp only [hres, if_true] at hmem ⊢
        simp only [List.mem_append, List.mem_singleton, List.mem_cons,
          List.not_mem_nil, or_false] at hmem
        rcases hmem with (hmem | hmem) | hmem
        · exact absurd hmem (by simp)
        · exact absurd hmem (by simp)
        · have hb : b = min cur (st.lastProcessedBlock + 1 +
              (if cur - st.lastProcessedBlock > 20 then
                min 20 (cur - st.lastProcessedBlock) else cfg) - 1) := by
            injection hmem
          subst hb
          refine ⟨?_, rfl, by simp, by simp, fun _ => by simp⟩
          by_cases hbehind : cur - st.lastProcessedBlock > 20
          · rw [if_pos hbehind]; omega
          · rw [if_neg hbehind]; omega
      · rw [if_neg hres] at hmem ⊢
        simp only [List.mem_append, List.mem_singleton, List.mem_cons,
          List.not_mem_nil, or_false] at hmem
        rcases hmem with hmem | hmem
        · exact absurd hmem (by simp)
        · have hb : b = min cur (st.lastProcessedBlock + 1 +
              (if cur - st.lastProcessedBlock > 20 then
                min 20 (cur - st.lastProcessedBlock) else cfg) - 1) := by
            injection hmem
          subst hb
          refine ⟨?_, rfl, by simp, by simp, fun hres' =>
            (hres hres').elim⟩
          by_cases hbehind : cur - st.lastProcessedBlock > 20
          · rw [if_pos hbehind]; omega
          · rw [if_neg hbehind]; omega

def c9WitnessState : LoopState :=
  { lastProcessedBlock := 100, processedBlocks := 0,
    foundTransactions := 0 }

theorem checkpointMonotonic_c9_witness :
    c9WitnessState.lastProcessedBlock ≤
      (scanNewBlocks 5 103 2 c9WitnessState).1.lastProcessedBlock ∧
    ((scanNewBlocks 5 103 2 c9WitnessState).2.countP isCheckpointWrite)
      ≤ 1 ∧
    (∀ b, ScanAction.checkpointWrite b ∈
        (scanNewBlocks 5 103 2 c9WitnessState).2 →
      c9WitnessState.lastProcessedBlock < b ∧
      b = (scanNewBlocks 5 103 2 c9WitnessState).1.lastProcessedBlock ∧
      (scanNewBlocks 5 103 2 c9WitnessState).2.getLast? =
        some (ScanAction.checkpointWrite b) ∧
      ScanAction.scanned (c9WitnessState.lastProcessedBlock + 1) b ∈
        (scanNewBlocks 5 103 2 c9WitnessState).2 ∧
      (0 < 2 → ScanAction.processed 2 ∈
        (scanNewBlocks 5 103 2 c9WitnessState).2)) ∧
    (∀ ticks, c9WitnessState.lastProcessedBlock ≤
      (runTicks 5 ticks c9WitnessState).lastProcessedBlock) :=
  checkpointMonotonic_c9 5 103 2 c9WitnessState (by decide)

/-! ## `BlockScanner` (src/src/db/redis.js)

Range scanning with per-block failure isolation.  `getBlock` models
`provider.getBlock(n, true)` (an `error` is a thrown fetch failure, an
`ok none` a `null` block); `getReceipt` models
`getTransactionReceipt` with its internal `catch`-to-`null` already
applied. -/

/-- A fetched block: `timestamp = none` models an absent/`NaN` timestamp
(`0` is also rejected by the source's falsy check). -/
structure Block where
  timestamp : Option Nat
  prefetchedTransactions : List RawTx
  deriving Repr, DecidableEq

structure ScanConfig where
  minValue : Nat
  maxValue : Nat
  deriving Repr, DecidableEq

/-- Model of `BlockScanner.getBlockTransactions`: fetch failures, `null` blocks and
invalid timestamps all yield the empty list. -/
def getBlockTransactions (getBlock : Nat → Except String (Option Block))
    (blockNumber : Nat) : List RawTx :=
  match getBlock blockNumber with
  | .error _ => []
  | .ok none => []
  | .ok (some blk) =>
    match blk.timestamp with
    | none => []
    | some t => if t = 0 then [] else blk.prefetchedTransactions

/-- Model of `BlockScanner.isTransactionRelevant`. -/
def isTransactionRelevant (watched : List String) (tx : RawTx) : Bool :=
  watched.contains (lower tx.txFrom) ||
    (match tx.txTo with
     | some t => watched.contains (lower t)
     | none => false)

/-- Model of `BlockScanner.filterTransaction`. -/
def filterTransaction (cfg : ScanConfig) (watched : List String)
    (tx : RawTx) : Bool :=
  if tx.value < cfg.minValue ∨ tx.value > cfg.maxValue then false
  else isTransactionRelevant watched tx

/-- Model of `BlockScanner.processBlock`: filter, fetch receipts (dropping
unconfirmed transactions), parse and format.  Every internal failure is
caught, so the function is total and a failed block contributes `[]`. -/
def processBlock (getBlock : Nat → Except String (Option Block))
    (getReceipt : String → Option Receipt)
    (getCode : String → Except String String)
    (getTokenInfo : String → TokenInfo) (now : Nat) (cfg : ScanConfig)
    (watched : List String) (blockNumber : Nat) : List FormattedTx :=
  let transactions := getBlockTransactions getBlock blockNumber
  let filteredTxs := transactions.filter (filterTransaction cfg watched)
  if filteredTxs = [] then []
  else
    let valid := filteredTxs.filterMap fun tx =>
      (getReceipt tx.hash).map fun r => (tx, r)
    if valid = [] then []
    else
      (valid.map fun p =>
        parseTransaction getCode getTokenInfo now p.1 (some p.2)).map
        formatOutput

/-- Model of the JS block-number array construction (length end - start + 1, entries start + i); a
negative JS length yields the empty array. -/
def blockRange (startBlock endBlock : Nat) : List Nat :=
  if startBlock ≤ endBlock + 1 then
    List.range' startBlock (endBlock + 1 - startBlock)
  else []

/-- The wave loop of `scanBlockRangeParallel`: process the first
`concurrency` blocks (all settle — `processBlock` never rejects), push
the non-empty results in order, continue with the rest.  All reachable
calls have `concurrency ≥ 1`. -/
def scanBatches (concurrency : Nat) (f : Nat → List FormattedTx) :
    List Nat → List FormattedTx
  | [] => []
  | x :: xs =>
    ((x :: xs.take (concurrency - 1)).map f).flatten ++
      scanBatches concurrency f (xs.drop (concurrency - 1))
termination_by l => l.length
decreasing_by simp [List.length_drop]; omega

/-- Model of `BlockScanner.scanBlockRangeParallel`. -/
def scanBlockRangeParallel (getBlock : Nat → Except String (Option Block))
    (getReceipt : String → Option Receipt)
    (getCode : String → Except String String)
    (getTokenInfo : String → TokenInfo) (now : Nat) (cfg : ScanConfig)
    (watched : List String) (startBlock endBlock : Nat) :
    List FormattedTx :=
  let totalBlocks := endBlock + 1 - startBlock
  let concurrency := min 10 totalBlocks
  scanBatches concurrency
    (processBlock getBlock getReceipt getCode getTokenInfo now cfg watched)
    (blockRange startBlock endBlock)

/-- Whether `provider.getBlock` succeeded for a block. -/
def fetchOk (getBlock : Nat → Except String (Option Block)) (b : Nat) :
    Bool :=
  match getBlock b with
  | .ok _ => true
  | .error _ => false

/-- Wave-batched aggregation equals plain per-block concatenation. -/
theorem scanBatches_eq_join (c : Nat) (f : Nat → List FormattedTx) :
    ∀ l : List Nat, scanBatches c f l = (l.map f).flatten := by
  have key : ∀ (n : Nat) (l : List Nat), l.length ≤ n →
      scanBatches c f l = (l.map f).flatten := by
    intro n
    induction n with
    | zero =>
      intro l hl
      cases l with
      | nil => simp [scanBatches]
      | cons x xs => simp at hl
    | succ n ih =>
      intro l hl
      cases l with
      | nil => simp [scanBatches]
      | cons x xs =>
        rw [scanBatches]
        rw [ih (xs.drop (c - 1)) (by simp [List.length_drop] at hl ⊢; omega)]
        rw [← List.flatten_append, ← List.map_append]
        have hsplit : (x :: xs.take (c - 1)) ++ xs.drop (c - 1) = x :: xs := by
          rw [List.cons_append, List.take_append_drop]
        rw [hsplit]
  exact fun l => key l.length l (Nat.le_refl _)

/-- A block whose fetch fails contributes nothing. -/
theorem processBlock_of_fetchFail (getBlock : Nat → Except String (Option Block))
    (getReceipt : String → Option Receipt)
    (getCode : String → Except String String)
    (getTokenInfo : String → TokenInfo) (now : Nat) (cfg : ScanConfig)
    (watched : List String) (b : Nat) (h : fetchOk getBlock b = false) :
    processBlock getBlock getReceipt getCode getTokenInfo now cfg watched
      b = [] := by
  unfold fetchOk at h
  unfold processBlock getBlockTransactions
  cases hb : getBlock b with
  | ok v => rw [hb] at h; simp at h
  | error e => simp

theorem bind_filter_of_empty {α β : Type} [DecidableEq β] (p : α → Bool)
    (f : α → List β) (l : List α) (h : ∀ x ∈ l, p x = false → f x = []) :
    l.flatMap f = (l.filter p).flatMap f := by
  induction l with
  | nil => rfl
  | cons x xs ih =>
    rw [List.flatMap_cons, List.filter_cons]
    by_cases hx : p x = true
    · rw [if_pos hx, List.flatMap_cons,
        ih fun y hy hpy => h y (List.mem_cons_of_mem x hy) hpy]
    · have hx' : p x = false := by simpa using hx
      rw [h x (List.mem_cons_self x xs) hx', if_neg (by simp [hx']),
        List.nil_append,
        ih fun y hy hpy => h y (List.mem_cons_of_mem x hy) hpy]

def c8Tx (b : Nat) : RawTx :=
  { hash := "0xt" ++ toString b, blockNumber := b, timestamp := some 1000,
    txFrom := "0xa", txTo := some "0xc", value := 1000000000000000000,
    gasPrice := 0, gasLimit := 0, status := none, data := "0x" }

/-- The oracle of the spec scenario: block 3 fails to fetch, every other
block holds one relevant transaction. -/
def c8GetBlock : Nat → Except String (Option Block) := fun b =>
  if b = 3 then .error "failed to fetch block"
  else .ok (some ⟨some 1000, [c8Tx b]⟩)

def c8Receipt : Receipt := ⟨1, 21000, []⟩

def c8GetReceipt : String → Option Receipt := fun _ => some c8Receipt

def c8Cfg : ScanConfig := ⟨0, 10000000000000000000000⟩

def c8Formatted (b : Nat) : FormattedTx :=
  formatOutput (parseTransaction zeroCodeOracle unknownTokenMeta 0 (c8Tx b)
    (some c8Receipt))

/-- Claim C8: the parallel range scan aggregates exactly the per-block
results of the successfully fetched blocks — a failing block contributes
nothing and aborts nothing (the model is total: no exception reaches the
caller) — and over the spec's 5-block scenario with block 3 failing the
result holds the deltas of blocks 1, 2, 4, 5 only, in order. -/
theorem partialFailure_c8 :
    (∀ (getBlock : Nat → Except String (Option Block))
      (getReceipt : String → Option Receipt)
      (getCode : String → Except String String)
      (getTokenInfo : String → TokenInfo) (now : Nat) (cfg : ScanConfig)
      (watched : List String) (startBlock endBlock : Nat),
      scanBlockRangeParallel getBlock getReceipt getCode getTokenInfo now
          cfg watched startBlock endBlock =
        ((blockRange startBlock endBlock).filter (fetchOk getBlock)).flatMap
          (processBlock getBlock getReceipt getCode getTokenInfo now cfg
            watched)) ∧
    scanBlockRangeParallel c8GetBlock c8GetReceipt zeroCodeOracle
        unknownTokenMeta 0 c8Cfg ["0xa"] 1 5 =
      [c8Formatted 1, c8Formatted 2, c8Formatted 4, c8Formatted 5] := by
  have key : ∀ (getBlock : Nat → Except String (Option Block))
      (getReceipt : String → Option Receipt)
      (getCode : String → Except String String)
      (getTokenInfo : String → TokenInfo) (now : Nat) (cfg : ScanConfig)
      (watched : List String) (startBlock endBlock : Nat),
      scanBlockRangeParallel getBlock getReceipt getCode getTokenInfo now
          cfg watched startBlock endBlock =
        ((blockRange startBlock endBlock).filter
            (fetchOk getBlock)).flatMap
          (processBlock getBlock getReceipt getCode getTokenInfo now cfg
            watched) := by
    intro getBlock getReceipt getCode getTokenInfo now cfg watched s e
    unfold scanBlockRangeParallel
    rw [scanBatches_eq_join]
    rw [← List.flatMap_def]
    exact bind_filter_of_empty (fetchOk getBlock) _ _ fun b _ hfail =>
      processBlock_of_fetchFail getBlock getReceipt getCode getTokenInfo
        now cfg watched b hfail
  refine ⟨key, ?_⟩
  rw [key]
  decide

/-! ## `TgBot` (src/src/notify/bot.js): the delivery queue

A FIFO buffer drained by a fixed-period timer; HTTP 429 responses set a
global rate-limit-until timestamp and re-queue the failed message at the
front with an incremented retry counter, up to `maxRetries`; other
failures drop the message. -/

/-- The source's `this.maxRetries` constant. -/
def tgMaxRetries : Nat := 3

/-- The source's `this.batchSize` constant. -/
def tgBatchSize : Nat := 5

/-- A queued message (`retryCount` defaults to 0 on enqueue). -/
structure QMsg where
  chatId : String
  html : String
  retryCount : Nat
  deriving Repr, DecidableEq

/-- The sink's answer to one `bot.sendMessage` call: success, a
`429 Too Many Requests` error with the optional parsed `retry after`
seconds, or any other error. -/
inductive SendOutcome where
  | success
  | tooManyRequests (retryAfter : Option Nat)
  | failure
  deriving Repr, DecidableEq

inductive DeliveryEvent where
  | delivered
  | requeuedFront (newRetryCount : Nat)
  | droppedPermanent
  | droppedOther
  deriving Repr, DecidableEq

/-- Model of `sendMessageWithRetry` for one message at time `now` (ms): returns the
message to unshift back to the queue front (if any), the observable event,
and the new `rateLimitUntil` if one was set.  An unparsable `retry after`
falls back to 2 seconds. -/
def sendMessageWithRetry (maxRetries now : Nat) (oc : SendOutcome)
    (m : QMsg) : Option QMsg × DeliveryEvent × Option Nat :=
  match oc with
  | .success => (none, .delivered, none)
  | .tooManyRequests retryAfterParsed =>
    let retryAfter := retryAfterParsed.getD 2
    let rateLimitUntil := now + retryAfter * 1000
    if m.retryCount < maxRetries then
      (some { m with retryCount := m.retryCount + 1 },
       .requeuedFront (m.retryCount + 1), some rateLimitUntil)
    else
      (none, .droppedPermanent, some rateLimitUntil)
  | .failure => (none, .droppedOther, none)

/-- Model of `processQueue` for one timer tick at time `now`: a no-op on an empty
queue or while rate-limited; otherwise splices up to `batchSize` messages
and sends them.  (The source settles the batch concurrently; the model
settles it sequentially in batch order — for the single in-flight message
of the claim the order is immaterial.) -/
def processQueue (maxRetries now rateLimitUntil : Nat)
    (sink : QMsg → SendOutcome) (queue : List QMsg) :
    List QMsg × List DeliveryEvent × Nat :=
  if queue = [] then (queue, [], rateLimitUntil)
  else if now < rateLimitUntil then (queue, [], rateLimitUntil)
  else
    let batch := queue.take tgBatchSize
    let rest := queue.drop tgBatchSize
    batch.foldl
      (fun (acc : List QMsg × List DeliveryEvent × Nat) m =>
        let (q, evs, rlu) := acc
        let (requeue, ev, rlu') := sendMessageWithRetry maxRetries now
          (sink m) m
        (match requeue with
         | some m' => m' :: q
         | none => q,
         evs ++ [ev], rlu'.getD rlu))
      (rest, [], rateLimitUntil)

/-- The effective (non-rate-limited) ticks that process a queue to
exhaustion, with a fuel bound on the number of ticks. -/
def drainMessage (maxRetries : Nat) (sink : QMsg → SendOutcome) :
    Nat → List QMsg → List DeliveryEvent
  | 0, _ => []
  | fuel + 1, q =>
    if q = [] then []
    else
      let step := processQueue maxRetries 0 0 sink q
      step.2.1 ++ drainMessage maxRetries sink fuel step.1

def alwaysThrottle : QMsg → SendOutcome :=
  fun _ => .tooManyRequests (some 2)

def alwaysSucceed : QMsg → SendOutcome := fun _ => .success

theorem drainMessage_nil (maxRetries : Nat) (sink : QMsg → SendOutcome)
    (fuel : Nat) : drainMessage maxRetries sink fuel [] = [] := by
  cases fuel with
  | zero => rfl
  | succ fuel => simp [drainMessage]

/-- A singleton queue under the always-throttling sink: each effective
tick re-queues at the front with the counter bumped, until the counter
reaches `maxRetries`, when the message is dropped with one permanent
failure report. -/
theorem drainMessage_throttle (maxRetries : Nat) (cid html : String) :
    ∀ (fuel rc : Nat), rc ≤ maxRetries → maxRetries - rc < fuel →
      drainMessage maxRetries alwaysThrottle fuel [⟨cid, html, rc⟩] =
        (List.range' (rc + 1) (maxRetries - rc)).map
          DeliveryEvent.requeuedFront ++
          [DeliveryEvent.droppedPermanent] := by
  intro fuel
  induction fuel with
  | zero => intro rc _ hfuel; omega
  | succ fuel ih =>
    intro rc hrc hfuel
    by_cases hlt : rc < maxRetries
    · have hq : processQueue maxRetries 0 0 alwaysThrottle
          [⟨cid, html, rc⟩] =
          ([⟨cid, html, rc + 1⟩], [.requeuedFront (rc + 1)], 2000) := by
        simp [processQueue, tgBatchSize, sendMessageWithRetry,
          alwaysThrottle, hlt]
      rw [drainMessage, if_neg (by simp)]
      simp only [hq]
      rw [ih (rc + 1) (by omega) (by omega)]
      have hrange : maxRetries - rc = (maxRetries - (rc + 1)) + 1 := by
        omega
      rw [hrange, List.range'_succ]
      simp
    · have hq : processQueue maxRetries 0 0 alwaysThrottle
          [⟨cid, html, rc⟩] = ([], [.droppedPermanent], 2000) := by
        simp [processQueue, tgBatchSize, sendMessageWithRetry,
          alwaysThrottle, hlt]
      rw [drainMessage, if_neg (by simp)]
      simp only [hq]
      rw [drainMessage_nil]
      have hz : maxRetries - rc = 0 := by omega
      simp [hz]

/-- Claim C4: (i) while rate-limited a tick is a pure no-op — nothing is
sent, dropped or duplicated; (ii) a throttled message with remaining
budget is re-queued at the *front* with its counter incremented and the
rate-limit set from the parsed `retry after`; (iii) under a sink that
always answers `429 retry after 2`, a fresh message is re-queued exactly
`maxRetries` times with counters `1..maxRetries` and then dropped with
exactly one permanent-failure report and zero deliveries; (iv) under a
sink that succeeds, the message is delivered exactly once — never
duplicated, never dropped. -/
theorem deliveryRetry_c4 (maxRetries fuel : Nat) (cid html : String)
    (hfuel : maxRetries < fuel) :
    (∀ (now rateLimitUntil : Nat) (sink : QMsg → SendOutcome)
      (queue : List QMsg), now < rateLimitUntil →
      processQueue maxRetries now rateLimitUntil sink queue =
        (queue, [], rateLimitUntil)) ∧
    (∀ (now : Nat) (m : QMsg), m.retryCount < maxRetries →
      processQueue maxRetries now 0 alwaysThrottle [m] =
        ([⟨m.chatId, m.html, m.retryCount + 1⟩],
         [.requeuedFront (m.retryCount + 1)], now + 2000)) ∧
    (drainMessage maxRetries alwaysThrottle fuel [⟨cid, html, 0⟩] =
      (List.range' 1 maxRetries).map DeliveryEvent.requeuedFront ++
        [DeliveryEvent.droppedPermanent]) ∧
    ((drainMessage maxRetries alwaysThrottle fuel
        [⟨cid, html, 0⟩]).count DeliveryEvent.droppedPermanent = 1) ∧
    ((drainMessage maxRetries alwaysThrottle fuel
        [⟨cid, html, 0⟩]).count DeliveryEvent.delivered = 0) ∧
    (drainMessage maxRetries alwaysSucceed fuel [⟨cid, html, 0⟩] =
      [DeliveryEvent.delivered]) := by
  have hthr := drainMessage_throttle maxRetries cid html fuel 0
    (Nat.zero_le _) (by omega)
  have hthr' : drainMessage maxRetries alwaysThrottle fuel
      [⟨cid, html, 0⟩] =
      (List.range' 1 maxRetries).map DeliveryEvent.requeuedFront ++
        [DeliveryEvent.droppedPermanent] := by
    simpa using hthr
  refine ⟨?_, ?_, hthr', ?_, ?_, ?_⟩
  · intro now rlu sink queue hlim
    unfold processQueue
    by_cases hq : queue = []
    · simp [hq]
    · simp [hq, hlim]
  · intro now m hm
    simp [processQueue, tgBatchSize, sendMessageWithRetry, alwaysThrottle,
      hm]
  · rw [hthr', List.count_append]
    have hmap : ∀ l : List Nat, (l.map DeliveryEvent.requeuedFront).count
        DeliveryEvent.droppedPermanent = 0 := by
      intro l
      rw [List.count_eq_zero]
      intro h
      obtain ⟨n, -, hn⟩ := List.mem_map.mp h
      exact DeliveryEvent.noConfusion hn
    rw [hmap]
    decide
  · rw [hthr', List.count_append]
    have hmap : ∀ l : List Nat, (l.map DeliveryEvent.requeuedFront).count
        DeliveryEvent.delivered = 0 := by
      intro l
      rw [List.count_eq_zero]
      intro h
      obtain ⟨n, -, hn⟩ := List.mem_map.mp h
      exact DeliveryEvent.noConfusion hn
    rw [hmap]
    decide
  · cases fuel with
    | zero => omega
    | succ fuel =>
      have hq : processQueue maxRetries 0 0 alwaysSucceed
          [⟨cid, html, 0⟩] = ([], [.delivered], 0) := by
        simp [processQueue, tgBatchSize, sendMessageWithRetry,
          alwaysSucceed]
      rw [drainMessage, if_neg (by simp)]
      simp only [hq]
      rw [drainMessage_nil]
      rfl

theorem deliveryRetry_c4_witness :
    processQueue 3 5 10 alwaysThrottle [⟨"c", "m", 0⟩] =
      ([⟨"c", "m", 0⟩], [], 10) ∧
    processQueue 3 7 0 alwaysThrottle [⟨"c", "m", 1⟩] =
      ([⟨"c", "m", 2⟩], [.requeuedFront 2], 2007) ∧
    drainMessage 3 alwaysThrottle 4 [⟨"c", "m", 0⟩] =
      [.requeuedFront 1, .requeuedFront 2, .requeuedFront 3,
       .droppedPermanent] ∧
    drainMessage 3 alwaysSucceed 4 [⟨"c", "m", 0⟩] = [.delivered] := by
  have h := deliveryRetry_c4 3 4 "c" "m" (by decide)
  refine ⟨h.1 5 10 alwaysThrottle [⟨"c", "m", 0⟩] (by decide),
    by simpa using h.2.1 7 ⟨"c", "m", 1⟩ (by decide), ?_, h.2.2.2.2.2⟩
  rw [h.2.2.1]
  decide

end WalletMonitorModel
